import Mathlib

/-
Verification of the promptbox request-assembly pipeline.

This file gives a shallow embedding of the argument-binding, context-budget,
streaming-dispatch and option-merging logic of the repository
(src/args.rs, src/error.rs, src/main.rs, src/ollama.rs, src/option.rs) and
proves or refutes the specified properties about it.

Code that belongs to the repository but is not present under src/
(context.rs, template.rs, model.rs) is modelled from the specification; each
such definition carries a doc comment starting with "Modelled from the spec:".
-/

set_option autoImplicit false

namespace Promptbox

/-! ## String primitives

Executable models of the Rust standard-library string operations the sources
use.  They are written by structural recursion on the character list so that
concrete witnesses evaluate inside the kernel.  All inputs in this development
are ASCII, where Rust's byte indexing and Lean's character indexing agree. -/

/-- Model of Rust `str::split(sep)` on a character list: splits at every
occurrence of `sep`, `"" ↦ [""]`. -/
def splitCharList (sep : Char) : List Char → List String
  | [] => [""]
  | c :: rest =>
    if c = sep then "" :: splitCharList sep rest
    else
      match splitCharList sep rest with
      | [] => [String.mk [c]]
      | line :: more => String.mk (c :: line.data) :: more

/-- Model of Rust `str::split('\n')` on a `String`. -/
def splitNewline (s : String) : List String :=
  splitCharList '\n' s.data

/-- `listIsInitial p l` is true when `p` is an initial segment of `l`. -/
def listIsInitial : List Char → List Char → Bool
  | [], _ => true
  | _ :: _, [] => false
  | a :: as, b :: bs => a = b && listIsInitial as bs

/-- Model of Rust `str::starts_with` for string patterns. -/
def strStartsWith (s pat : String) : Bool :=
  listIsInitial pat.data s.data

/-- Model of Rust byte slicing `s[n..]` for ASCII strings. -/
def strDrop (s : String) (n : Nat) : String :=
  String.mk (s.data.drop n)

/-- ASCII whitespace test, modelling the whitespace class used by `str::trim`
on the inputs occurring here. -/
def isWS (c : Char) : Bool :=
  c = ' ' || c = '\n' || c = '\t' || c = '\r'

/-- Model of Rust `str::trim`. -/
def trimChars (s : String) : String :=
  String.mk (((s.data.dropWhile isWS).reverse.dropWhile isWS).reverse)

/-- Model of Rust `str::parse::<usize>` for plain decimal digit strings
(the only shape exercised here: nonempty, all digits). -/
def parseUsize (s : String) : Option Nat :=
  if s.data ≠ [] ∧ s.data.all Char.isDigit then
    some (s.data.foldl (fun acc c => acc * 10 + (c.toNat - '0'.toNat)) 0)
  else
    none

/-- Model of Rust `str::is_empty`. -/
def strIsEmpty (s : String) : Bool :=
  s.data.isEmpty

/-- Model of `Path::file_name().map(to_string_lossy).unwrap_or_default()`
for the plain relative paths (`"dir/name.ext"`) used by this program:
the final `/`-separated component. -/
def fileName (path : String) : String :=
  ((splitCharList '/' path.data).getLast?).getD ""

/-! ## Data model (template.rs types as consumed by args.rs)

`template.rs` is not under src/; the shapes below are exactly the fields that
src/args.rs reads from `PromptTemplate` and `PromptOption`. -/

/-- `OptionType` from the template schema (src/args.rs matches all six). -/
inductive OptionType
  | string
  | number
  | integer
  | bool
  | file
  | image
deriving DecidableEq, Repr

/-- Carrier for Rust `f32` values.  No floating-point arithmetic occurs in the
verified code paths: `f32` values are only carried through from the parser
into the JSON context, so the bit pattern is an adequate model. -/
structure F32 where
  bits : Nat
deriving DecidableEq, Repr

/-- Model of `serde_json::Value`.  Numbers keep the integer/float split of
`serde_json::Number`. -/
inductive Json
  | null
  | bool (b : Bool)
  | num (x : F32)
  | int (n : Int)
  | str (s : String)
  | arr (xs : List Json)
  | obj (fields : List (String × Json))

/-- Option descriptor from the template schema: the fields of `PromptOption`
read by src/args.rs (`option_type`, `array`, `default`, `optional`,
`description`). -/
structure PromptOption where
  option_type : OptionType
  array : Bool
  default : Option Json
  optional : Bool
  description : String

/-- A caller-supplied, clap-coerced value as stored in `ArgMatches`:
clap stores the typed result of the per-type `value_parser` chosen at
src/args.rs lines 161-170. -/
inductive ArgVal
  | vBool (b : Bool)
  | vNum (x : F32)
  | vInt (n : Int)
  | vStr (s : String)
  | vPath (p : String)
deriving DecidableEq, Repr

/-- Modelled from the spec: `image.rs` is not under src/.  "For Image-typed
options: raw image bytes plus derived metadata" — the byte payload suffices
for the properties verified here. -/
structure ImageData where
  bytes : List Nat
deriving DecidableEq, Repr

/-! ## Error model (error.rs and error_stack reports) -/

/-- The clap error kind relevant to binding: `try_get_matches_from` fails with
`MissingRequiredArgument`, naming every required argument that was omitted. -/
inductive ClapErrorKind
  | missingRequiredArgument (names : List String)
deriving DecidableEq, Repr

/-- Error contexts appearing in the binding paths: `std::io::Error` values,
and the `Error::Io`, `Error::ArgParseFailure`, `Error::CmdlineParseFailure`
variants of src/error.rs. -/
inductive ErrCtx
  | ioError
  | io
  | argParseFailure
  | cmdlineParseFailure (k : ClapErrorKind)
deriving DecidableEq, Repr

/-- Model of an `error_stack::Report`: the stack of contexts (innermost
first, so the *current* context is the last element) together with the
printable attachments added along the way. -/
structure ErrReport where
  contexts : List ErrCtx
  attachments : List String
deriving DecidableEq, Repr

/-- `Report::change_context`. -/
def ErrReport.changeContext (r : ErrReport) (c : ErrCtx) : ErrReport :=
  { r with contexts := r.contexts ++ [c] }

/-- `Report::attach_printable` / `attach_printable_lazy`. -/
def ErrReport.attach (r : ErrReport) (s : String) : ErrReport :=
  { r with attachments := r.attachments ++ [s] }

/-- Filesystem oracle: the outcomes of the OS calls made during binding.
`canonicalize base_dir path` models `base_dir.join(path).canonicalize()`,
`readToString` models `std::fs::read_to_string` on the canonical path, and
`imageNew` models `ImageData::new` on the canonical path (`none` = failure). -/
structure FileSystem where
  canonicalize : String → String → Option String
  readToString : String → Option String
  imageNew : String → Option ImageData

/-! ## Option Schema Binder (src/args.rs) -/

/-- The `required` flag computed for each derived clap `Arg`
(src/args.rs lines 151-157). -/
def argRequired (option : PromptOption) : Bool :=
  (option.option_type != OptionType.bool) && option.default.isNone && !option.optional

/-- The required arguments that clap finds no occurrence of in the token
stream; `try_get_matches_from` reports exactly these. -/
def missingRequiredOptions (options : List (String × PromptOption))
    (supplied : String → List ArgVal) : List String :=
  (options.filter (fun p => argRequired p.2 && (supplied p.1).isEmpty)).map Prod.fst

/-- The values clap stores in `ArgMatches` for an option: for a scalar Bool
option the action is `ArgAction::SetTrue` (src/args.rs line 147), which
records the implicit default `false` when the flag is absent. -/
def matchVals (option : PromptOption) (vals : List ArgVal) : List ArgVal :=
  if option.option_type = OptionType.bool ∧ option.array = false ∧ vals = [] then
    [ArgVal.vBool false]
  else
    vals

/-- `ArgMatches::remove_one`. -/
def remove_one (vals : List ArgVal) : Option ArgVal :=
  vals.head?

/-- `ArgMatches::remove_many`: `none` when the argument had no occurrence. -/
def remove_many (vals : List ArgVal) : Option (List ArgVal) :=
  if vals = [] then none else some vals

/-- Extract the `PathBuf` stored for a File/Image option.  clap only stores
paths for these options, so the catch-all branch is unreachable on
well-typed matches. -/
def pathOf : ArgVal → String
  | ArgVal.vPath p => p
  | _ => ""

/-- The `Into<serde_json::Value>` coercion applied by `add_val_to_context`. -/
def argValToJson : ArgVal → Json
  | ArgVal.vBool b => Json.bool b
  | ArgVal.vNum x => Json.num x
  | ArgVal.vInt n => Json.int n
  | ArgVal.vStr s => Json.str s
  | ArgVal.vPath p => Json.str p

/-- `context[name] = val` on a JSON object: replace the entry if the key is
present, append it otherwise. -/
def objInsert : List (String × Json) → String → Json → List (String × Json)
  | [], name, v => [(name, v)]
  | (k, w) :: rest, name, v =>
    if k = name then (k, v) :: rest else (k, w) :: objInsert rest name v

/-- Key lookup on a JSON object (first match). -/
def lookupCtx : List (String × Json) → String → Option Json
  | [], _ => none
  | (k, w) :: rest, name => if k = name then some w else lookupCtx rest name

/-- The value computed by `add_val_to_context` (src/args.rs lines 283-298):
supplied values win; otherwise the declared default; otherwise an empty
array for array options and null for scalar options. -/
def option_value (option : PromptOption) (vals : List ArgVal) : Json :=
  if option.array then
    match remove_many vals with
    | some vs => Json.arr (vs.map argValToJson)
    | none => option.default.getD (Json.arr [])
  else
    match remove_one vals with
    | some v => argValToJson v
    | none => option.default.getD Json.null

/-- `add_val_to_context` (src/args.rs lines 277-301). -/
def add_val_to_context (context : List (String × Json)) (vals : List ArgVal)
    (name : String) (option : PromptOption) : List (String × Json) :=
  objInsert context name (option_value option vals)

/-- `read_image` (src/args.rs lines 252-259).  A canonicalization failure is
given context `Error::Io` and the *original* path as attachment (line 257);
an `ImageData::new` failure gets the *canonical* path attached (line 258),
with its inner context modelled from the spec ("unreadable file/image →
`Io` failure") since image.rs is not under src/. -/
def read_image (fs : FileSystem) (base_dir path : String) :
    Except ErrReport ImageData :=
  match fs.canonicalize base_dir path with
  | none =>
    Except.error ((ErrReport.changeContext ⟨[ErrCtx.ioError], []⟩ ErrCtx.io).attach path)
  | some canon =>
    match fs.imageNew canon with
    | none => Except.error (ErrReport.attach ⟨[ErrCtx.io], []⟩ canon)
    | some img => Except.ok img

/-- `create_file_object` (src/args.rs lines 261-275).  The function's error
type is `Report<std::io::Error>`: a canonicalization failure propagates bare
through `?` (no attachment), while a read failure is attached
"Could not read file: {path}".  The `path` field of the produced object is
the caller-supplied path, not the canonical one. -/
def create_file_object (fs : FileSystem) (base_dir path : String) :
    Except ErrReport Json :=
  match fs.canonicalize base_dir path with
  | none => Except.error ⟨[ErrCtx.ioError], []⟩
  | some canon =>
    match fs.readToString canon with
    | none =>
      Except.error (ErrReport.attach ⟨[ErrCtx.ioError], []⟩ ("Could not read file: " ++ path))
    | some contents =>
      Except.ok (Json.obj
        [("filename", Json.str (fileName path)),
         ("path", Json.str path),
         ("contents", Json.str contents)])

/-- The `collect::<Result<Vec<_>, _>>()` over `create_file_object` for a File
array option (src/args.rs lines 226-231); the single
`change_context(ArgParseFailure)` is applied by the caller. -/
def filesTraverse (fs : FileSystem) (base_dir : String) :
    List String → Except ErrReport (List Json)
  | [] => Except.ok []
  | p :: rest =>
    match create_file_object fs base_dir p with
    | Except.error e => Except.error e
    | Except.ok v =>
      match filesTraverse fs base_dir rest with
      | Except.error e => Except.error e
      | Except.ok vs => Except.ok (v :: vs)

/-- The push loop over `read_image` for an Image array option (src/args.rs
lines 207-212): each failure is wrapped in `ArgParseFailure` where it occurs. -/
def readImages (fs : FileSystem) (base_dir : String) :
    List String → List ImageData → Except ErrReport (List ImageData)
  | [], images => Except.ok images
  | p :: rest, images =>
    match read_image fs base_dir p with
    | Except.error e => Except.error (e.changeContext ErrCtx.argParseFailure)
    | Except.ok img => readImages fs base_dir rest (images ++ [img])

/-- One iteration of the binding loop of `parse_template_args`
(src/args.rs lines 193-244), acting on the running context and image list. -/
def bindStep (fs : FileSystem) (base_dir : String) (name : String)
    (option : PromptOption) (vals : List ArgVal)
    (ctx : List (String × Json)) (images : List ImageData) :
    Except ErrReport (List (String × Json) × List ImageData) :=
  match option.option_type with
  | OptionType.bool | OptionType.number | OptionType.integer | OptionType.string =>
    Except.ok (add_val_to_context ctx vals name option, images)
  | OptionType.image =>
    if option.array then
      match readImages fs base_dir (((remove_many vals).getD []).map pathOf) images with
      | Except.error e => Except.error e
      | Except.ok imgs => Except.ok (ctx, imgs)
    else
      match remove_one vals with
      | none => Except.ok (ctx, images)
      | some v =>
        match read_image fs base_dir (pathOf v) with
        | Except.error e => Except.error (e.changeContext ErrCtx.argParseFailure)
        | Except.ok img => Except.ok (ctx, images ++ [img])
  | OptionType.file =>
    if option.array then
      match filesTraverse fs base_dir (((remove_many vals).getD []).map pathOf) with
      | Except.error e => Except.error (e.changeContext ErrCtx.argParseFailure)
      | Except.ok objs => Except.ok (objInsert ctx name (Json.arr objs), images)
    else
      match remove_one vals with
      | none => Except.ok (objInsert ctx name Json.null, images)
      | some v =>
        match create_file_object fs base_dir (pathOf v) with
        | Except.error e => Except.error (e.changeContext ErrCtx.argParseFailure)
        | Except.ok obj => Except.ok (objInsert ctx name obj, images)

/-- The `for (name, option) in &template.options` loop of
`parse_template_args`. -/
def bindLoop (fs : FileSystem) (base_dir : String) (supplied : String → List ArgVal) :
    List (String × PromptOption) → List (String × Json) → List ImageData →
    Except ErrReport (List (String × Json) × List ImageData)
  | [], ctx, images => Except.ok (ctx, images)
  | (name, option) :: rest, ctx, images =>
    match bindStep fs base_dir name option (matchVals option (supplied name)) ctx images with
    | Except.error e => Except.error e
    | Except.ok (ctx', images') => bindLoop fs base_dir supplied rest ctx' images'

/-- `parse_template_args` (src/args.rs lines 136-250): clap's
required-argument check over the merged argument surface, then the binding
loop producing the Evaluation Context and the image attachments.
`supplied` is the token stream after clap's per-type coercion: the list of
values supplied for each declared option name. -/
def parse_template_args (fs : FileSystem) (base_dir : String)
    (options : List (String × PromptOption)) (supplied : String → List ArgVal) :
    Except ErrReport (List (String × Json) × List ImageData) :=
  let missing := missingRequiredOptions options supplied
  if missing = [] then
    bindLoop fs base_dir supplied options [] []
  else
    Except.error
      ⟨[ErrCtx.cmdlineParseFailure (ClapErrorKind.missingRequiredArgument missing)], []⟩

/-! Characterizations of the per-option effect of the binding loop, used by
the lookup lemmas below. -/

/-- The Evaluation Context entry a single binding-loop iteration writes for
its own option name (`none` for Image options, which write no entry), and
the error it raises when a filesystem operation fails. -/
def stepWrites (fs : FileSystem) (base_dir : String) (option : PromptOption)
    (vals : List ArgVal) : Except ErrReport (Option Json) :=
  match option.option_type with
  | OptionType.bool | OptionType.number | OptionType.integer | OptionType.string =>
    Except.ok (some (option_value option vals))
  | OptionType.image =>
    if option.array then
      match readImages fs base_dir (((remove_many vals).getD []).map pathOf) [] with
      | Except.error e => Except.error e
      | Except.ok _ => Except.ok none
    else
      match remove_one vals with
      | none => Except.ok none
      | some v =>
        match read_image fs base_dir (pathOf v) with
        | Except.error e => Except.error (e.changeContext ErrCtx.argParseFailure)
        | Except.ok _ => Except.ok none
  | OptionType.file =>
    if option.array then
      match filesTraverse fs base_dir (((remove_many vals).getD []).map pathOf) with
      | Except.error e => Except.error (e.changeContext ErrCtx.argParseFailure)
      | Except.ok objs => Except.ok (some (Json.arr objs))
    else
      match remove_one vals with
      | none => Except.ok (some Json.null)
      | some v =>
        match create_file_object fs base_dir (pathOf v) with
        | Except.error e => Except.error (e.changeContext ErrCtx.argParseFailure)
        | Except.ok obj => Except.ok (some obj)

/-- Apply a computed entry to the context. -/
def applyWrite (ctx : List (String × Json)) (name : String) :
    Option Json → List (String × Json)
  | some v => objInsert ctx name v
  | none => ctx

/-- The Evaluation Context entry produced for a declared option when no value
is supplied for it. -/
def unsuppliedEntry (option : PromptOption) : Option Json :=
  match option.option_type with
  | OptionType.image => none
  | OptionType.file => some (if option.array then Json.arr [] else Json.null)
  | OptionType.bool =>
    some (if option.array then option.default.getD (Json.arr []) else Json.bool false)
  | _ =>
    some (if option.array then option.default.getD (Json.arr [])
          else option.default.getD Json.null)

/-! ## Context Budgeter (context.rs, modelled from the spec)

`context.rs` is not under src/.  The only trace of it in the sources is the
`overflow_keep : Option<OverflowKeep>` run flag (src/args.rs lines 85-88,
"Defaults to keeping the start") and the `enforce_context_limit` call in
src/main.rs lines 96-103.  The definitions below are modelled from the spec. -/

/-- `OverflowKeep` (context.rs is not under src/): which side of the free-form
input survives truncation.  `Start` keeps the trailing portion, `End` keeps
the leading portion. -/
inductive OverflowKeep
  | Start
  | End
deriving DecidableEq, Repr

/-- Budgeter failure: fixed template content alone exceeds the ceiling. -/
inductive BudgetError
  | contextLimitExceeded
deriving DecidableEq, Repr

/-- Modelled from the spec: keep `n` whole lines of the free-form input from
the side selected by the `OverflowKeep` policy — `End` keeps the leading
portion, `Start` the trailing portion. -/
def keepLines (keep : OverflowKeep) (lines : List String) (n : Nat) : List String :=
  match keep with
  | OverflowKeep.End => lines.take n
  | OverflowKeep.Start => lines.drop (lines.length - n)

/-- Modelled from the spec: the truncate→re-render→re-tokenize loop of
`enforce_context_limit`, dropping one line at a time from the selected side
until the re-rendered prompt fits the budget, failing with
`ContextLimitExceeded` when even the empty free-form input does not fit. -/
def truncateLoop (keep : OverflowKeep) (tokens : String → Nat)
    (render : String → String) (budget : Nat) (lines : List String) :
    Nat → Except BudgetError String
  | 0 =>
    let rendered := render (String.intercalate "\n" (keepLines keep lines 0))
    if tokens rendered ≤ budget then Except.ok rendered
    else Except.error BudgetError.contextLimitExceeded
  | n + 1 =>
    let rendered := render (String.intercalate "\n" (keepLines keep lines (n + 1)))
    if tokens rendered ≤ budget then Except.ok rendered
    else truncateLoop keep tokens render budget lines n

/-- Modelled from the spec: `context::enforce_context_limit` (context.rs is
not under src/).  `render` stands for the template-rendering collaborator
applied to a candidate free-form input (it adds the template-fixed content);
`tokens` for the backend tokenizer; the budget is `limit − reserve`.  When
the overflow-keep setting is unspecified the policy defaults to `End`. -/
def enforce_context_limit (overflow_keep : Option OverflowKeep)
    (tokens : String → Nat) (render : String → String)
    (limit reserve : Nat) (input : String) : Except BudgetError String :=
  let keep := overflow_keep.getD OverflowKeep.End
  let lines := splitNewline input
  truncateLoop keep tokens render (limit - reserve) lines lines.length

/-! ## Backend Dispatcher (src/ollama.rs) -/

/-- The `ModelError` contexts used along the streaming path
(`ModelError::Raw` for a failed line read, `ModelError::Deserialize` for an
undecodable chunk). -/
inductive ModelError
  | raw
  | deserialize
deriving DecidableEq, Repr

/-- One decoded line of the Ollama JSON-lines response body
(src/ollama.rs lines 32-37). -/
structure OllamaResponse where
  response : String
  done : Bool
deriving DecidableEq, Repr

/-- The outcome of reading and decoding one line of the response body:
`readError` models a failed `reader.lines()` item, `malformed` a
`serde_json::from_str` failure, `ok` a well-formed JSON line. -/
inductive LineResult
  | readError
  | malformed
  | ok (chunk : OllamaResponse)
deriving DecidableEq, Repr

/-- The streaming loop of `send_request` (src/ollama.rs lines 65-73): for
each line, decode it and push its `response` text onto the channel; a read
failure raises `ModelError::Raw`, a decode failure `ModelError::Deserialize`,
and either aborts the loop, leaving the already-pushed fragments on the
channel (modelled by the accumulator). -/
def send_request_loop : List LineResult → List String →
    List String × Option ModelError
  | [], sent => (sent, none)
  | LineResult.readError :: _, sent => (sent, some ModelError.raw)
  | LineResult.malformed :: _, sent => (sent, some ModelError.deserialize)
  | LineResult.ok chunk :: rest, sent => send_request_loop rest (sent ++ [chunk.response])

/-- `ModelInfo`, the decoded `/api/show` response (src/ollama.rs lines 76-81). -/
structure ModelInfo where
  modelfile : String
  parameters : String
  template : String
deriving DecidableEq, Repr

/-- The metadata-inspection part of `model_context_limit`
(src/ollama.rs lines 92-108), acting on the `parameters` field of the
already-fetched `ModelInfo`: find the first parameter line starting with
`num_ctx`; if none exists return the documented default 2048; otherwise
parse the value after the parameter name. -/
def model_context_limit_params (parameters : String) : Except ModelError Nat :=
  match (splitNewline parameters).find? (fun l => strStartsWith l "num_ctx") with
  | none => Except.ok 2048
  | some context_param =>
    match parseUsize (trimChars (strDrop context_param ("num_ctx ".length))) with
    | some n => Except.ok n
    | none => Except.error ModelError.deserialize

/-! ## Extra-text assembly (src/main.rs lines 53-71) -/

/-- Result of assembling the trailing "extra" text: the possibly extended
template and the possibly extended Evaluation Context. -/
structure ExtraResult where
  template : String
  context : List (String × Json)

/-- The extra-text assembly of `generate_template` (src/main.rs lines 53-71):
take the declared trailing extra strings; when stdin is not a terminal and
the piped text is nonempty, push it after them; join with blank lines.  If
the template references an `extra` binding, inject the joined text into the
context under "extra"; otherwise, when nonempty, append it to the template.
`references_extra` stands for `template_references_extra` (template.rs is
not under src/; modelled from the spec as a fixed predicate of the
template). -/
def apply_extra (template : String) (extra_prompt : List String)
    (stdin_is_terminal : Bool) (stdin_value : String)
    (references_extra : Bool) (context : List (String × Json)) : ExtraResult :=
  let extra :=
    if !stdin_is_terminal && !(strIsEmpty stdin_value) then extra_prompt ++ [stdin_value]
    else extra_prompt
  let extra_content := String.intercalate "\n\n" extra
  if references_extra then
    ⟨template, objInsert context "extra" (Json.str extra_content)⟩
  else if !(strIsEmpty extra_content) then
    ⟨template ++ "\n\n" ++ extra_content, context⟩
  else
    ⟨template, context⟩

/-! ## Model-option precedence (src/option.rs and src/main.rs lines 44-46) -/

/-- `overwrite_from_option` (src/option.rs lines 1-5), functionally: the
mutable slot keeps its value unless the other source supplies one. -/
def overwrite_from_option {α : Type} (self_value : α) (other_value : Option α) : α :=
  match other_value with
  | some value => value
  | none => self_value

/-- `overwrite_option_from_option` (src/option.rs lines 7-11). -/
def overwrite_option_from_option {α : Type} (self_value : Option α)
    (other_value : Option α) : Option α :=
  if other_value.isSome then other_value else self_value

/-- `update_if_none` (src/option.rs lines 13-16). -/
def update_if_none {α : Type} (a : Option α) (b : Option α) : Option α :=
  if a.isNone && b.isSome then b else a

/-- Modelled from the spec: the resolved `ModelOptions` parameter set
(model.rs is not under src/).  Two representative fields: the optional model
name, and the temperature, which is a plain `f32` with a backend default
(src/ollama.rs reads `options.temperature` directly). -/
structure ModelOptions where
  model : Option String
  temperature : F32
deriving DecidableEq, Repr

/-- The template's declared model block (external template collaborator). -/
structure ModelInput where
  model : Option String
  temperature : Option F32
deriving DecidableEq, Repr

/-- The model-related CLI flags of `GlobalRunArgs` (src/args.rs lines 49-59:
`model : Option<String>`, `temperature : Option<f32>`). -/
structure RunModelArgs where
  model : Option String
  temperature : Option F32
deriving DecidableEq, Repr

/-- Modelled from the spec: `ModelOptions::update_from_model_input`
(model.rs is not under src/), folding the template's declared model block
onto the options with the src/option.rs combinators ("pure folding functions
over immutable option structs applied in a fixed, documented order"). -/
def ModelOptions.update_from_model_input (o : ModelOptions) (i : ModelInput) :
    ModelOptions :=
  { model := overwrite_option_from_option o.model i.model,
    temperature := overwrite_from_option o.temperature i.temperature }

/-- Modelled from the spec: `ModelOptions::update_from_args` (model.rs is not
under src/), folding the explicit CLI flags onto the options. -/
def ModelOptions.update_from_args (o : ModelOptions) (a : RunModelArgs) :
    ModelOptions :=
  { model := overwrite_option_from_option o.model a.model,
    temperature := overwrite_from_option o.temperature a.temperature }

/-- The resolution order of src/main.rs lines 44-46: start from the persisted
configuration, fold in the template's declared model block, then the explicit
CLI flags. -/
def resolve_model_options (config : ModelOptions) (input : ModelInput)
    (args : RunModelArgs) : ModelOptions :=
  (config.update_from_model_input input).update_from_args args

/-! ## Concrete inputs for witnesses and counterexamples -/

/-- A filesystem on which every OS call fails. -/
def emptyFS : FileSystem :=
  ⟨fun _ _ => none, fun _ => none, fun _ => none⟩

/-- A filesystem where canonicalization prepends "/c/" and every file reads
as "hello". -/
def helloFS : FileSystem :=
  ⟨fun _ p => some ("/c/" ++ p), fun _ => some "hello", fun _ => some ⟨[1]⟩⟩

/-- A single mandatory String option, as in the spec's `topic` scenario. -/
def c1Options : List (String × PromptOption) :=
  [("topic", ⟨OptionType.string, false, none, false, ""⟩)]

/-- Three declared options: a scalar Bool with a declared default, a scalar
File with a declared default, and an optional scalar Image. -/
def c2Options : List (String × PromptOption) :=
  [("b", ⟨OptionType.bool, false, some (Json.bool true), false, ""⟩),
   ("f", ⟨OptionType.file, false, some (Json.str "d"), false, ""⟩),
   ("img", ⟨OptionType.image, false, none, true, ""⟩)]

/-- The Evaluation Context produced by binding `c2Options` with no supplied
values. -/
def c2Context : List (String × Json) :=
  [("b", Json.bool false), ("f", Json.null)]

/-- A single scalar Bool option. -/
def c3Options : List (String × PromptOption) :=
  [("flag", ⟨OptionType.bool, false, none, false, ""⟩)]

/-- A single mandatory scalar File option. -/
def c5Options : List (String × PromptOption) :=
  [("f", ⟨OptionType.file, false, none, false, ""⟩)]

/-- Supplying `--f x.txt` and nothing else. -/
def c5Supplied : String → List ArgVal :=
  fun name => if name = "f" then [ArgVal.vPath "x.txt"] else []

/-! ## Helper lemmas -/

theorem lookup_objInsert_self (ctx : List (String × Json)) (k : String) (v : Json) :
    lookupCtx (objInsert ctx k v) k = some v := by
  induction ctx with
  | nil => simp [objInsert, lookupCtx]
  | cons hd tl ih =>
    obtain ⟨k0, w0⟩ := hd
    by_cases h : k0 = k
    · simp [objInsert, lookupCtx, h]
    · simp [objInsert, lookupCtx, h, ih]

theorem lookup_objInsert_ne (ctx : List (String × Json)) (k k' : String) (v : Json)
    (h : k' ≠ k) : lookupCtx (objInsert ctx k v) k' = lookupCtx ctx k' := by
  have h' : ¬(k = k') := Ne.symm h
  induction ctx with
  | nil => simp [objInsert, lookupCtx, h']
  | cons hd tl ih =>
    obtain ⟨k0, w0⟩ := hd
    by_cases h0 : k0 = k
    · subst h0
      simp [objInsert, lookupCtx, h']
    · by_cases h1 : k0 = k'
      · simp [objInsert, lookupCtx, h0, h1, h]
      · simp [objInsert, lookupCtx, h0, h1, ih]

theorem lookup_applyWrite_self (ctx : List (String × Json)) (k : String)
    (e : Option Json) :
    lookupCtx (applyWrite ctx k e) k = Option.or e (lookupCtx ctx k) := by
  cases e with
  | none => simp [applyWrite, Option.or]
  | some v => simp [applyWrite, Option.or, lookup_objInsert_self]

theorem lookup_applyWrite_ne (ctx : List (String × Json)) (k k' : String)
    (e : Option Json) (h : k' ≠ k) :
    lookupCtx (applyWrite ctx k e) k' = lookupCtx ctx k' := by
  cases e with
  | none => simp [applyWrite]
  | some v => simp [applyWrite, lookup_objInsert_ne _ _ _ _ h]

theorem readImages_ok_any_acc {fs : FileSystem} {bd : String} :
    ∀ (ps : List String) (acc r : List ImageData),
    readImages fs bd ps acc = Except.ok r →
    ∀ acc', ∃ r', readImages fs bd ps acc' = Except.ok r' := by
  intro ps
  induction ps with
  | nil => intro acc r _ acc'; exact ⟨acc', rfl⟩
  | cons p rest ih =>
    intro acc r h acc'
    cases hread : read_image fs bd p with
    | error e => simp [readImages, hread] at h
    | ok img =>
      simp only [readImages, hread] at h ⊢
      exact ih _ _ h _

theorem bindStep_ok {fs : FileSystem} {bd name : String} {option : PromptOption}
    {vals : List ArgVal} {ctx : List (String × Json)} {images : List ImageData}
    {ctx₂ : List (String × Json)} {images₂ : List ImageData}
    (h : bindStep fs bd name option vals ctx images = Except.ok (ctx₂, images₂)) :
    ∃ e, stepWrites fs bd option vals = Except.ok e ∧ ctx₂ = applyWrite ctx name e := by
  cases hty : option.option_type with
  | bool =>
    simp only [bindStep, hty, Except.ok.injEq, Prod.mk.injEq] at h
    exact ⟨some (option_value option vals), by simp [stepWrites, hty],
      by simp [applyWrite, ← h.1, add_val_to_context]⟩
  | number =>
    simp only [bindStep, hty, Except.ok.injEq, Prod.mk.injEq] at h
    exact ⟨some (option_value option vals), by simp [stepWrites, hty],
      by simp [applyWrite, ← h.1, add_val_to_context]⟩
  | integer =>
    simp only [bindStep, hty, Except.ok.injEq, Prod.mk.injEq] at h
    exact ⟨some (option_value option vals), by simp [stepWrites, hty],
      by simp [applyWrite, ← h.1, add_val_to_context]⟩
  | string =>
    simp only [bindStep, hty, Except.ok.injEq, Prod.mk.injEq] at h
    exact ⟨some (option_value option vals), by simp [stepWrites, hty],
      by simp [applyWrite, ← h.1, add_val_to_context]⟩
  | image =>
    cases ha : option.array with
    | true =>
      cases hr : readImages fs bd (((remove_many vals).getD []).map pathOf) images with
      | error e => simp [bindStep, hty, ha, hr] at h
      | ok imgs =>
        simp only [bindStep, hty, ha, hr, if_true, Except.ok.injEq, Prod.mk.injEq] at h
        refine ⟨none, ?_, by simp [applyWrite, ← h.1]⟩
        obtain ⟨r', hr'⟩ := readImages_ok_any_acc _ _ _ hr []
        simp [stepWrites, hty, ha, hr']
    | false =>
      cases hone : remove_one vals with
      | none =>
        simp only [bindStep, hty, ha, Bool.false_eq_true, if_false, hone,
          Except.ok.injEq, Prod.mk.injEq] at h
        exact ⟨none, by simp [stepWrites, hty, ha, hone], by simp [applyWrite, ← h.1]⟩
      | some v =>
        cases hread : read_image fs bd (pathOf v) with
        | error e => simp [bindStep, hty, ha, hone, hread] at h
        | ok img =>
          simp only [bindStep, hty, ha, Bool.false_eq_true, if_false, hone, hread,
            Except.ok.injEq, Prod.mk.injEq] at h
          exact ⟨none, by simp [stepWrites, hty, ha, hone, hread],
            by simp [applyWrite, ← h.1]⟩
  | file =>
    cases ha : option.array with
    | true =>
      cases hr : filesTraverse fs bd (((remove_many vals).getD []).map pathOf) with
      | error e => simp [bindStep, hty, ha, hr] at h
      | ok objs =>
        simp only [bindStep, hty, ha, hr, if_true, Except.ok.injEq, Prod.mk.injEq] at h
        exact ⟨some (Json.arr objs), by simp [stepWrites, hty, ha, hr],
          by simp [applyWrite, ← h.1]⟩
    | false =>
      cases hone : remove_one vals with
      | none =>
        simp only [bindStep, hty, ha, Bool.false_eq_true, if_false, hone,
          Except.ok.injEq, Prod.mk.injEq] at h
        exact ⟨some Json.null, by simp [stepWrites, hty, ha, hone],
          by simp [applyWrite, ← h.1]⟩
      | some v =>
        cases hobj : create_file_object fs bd (pathOf v) with
        | error e => simp [bindStep, hty, ha, hone, hobj] at h
        | ok obj =>
          simp only [bindStep, hty, ha, Bool.false_eq_true, if_false, hone, hobj,
            Except.ok.injEq, Prod.mk.injEq] at h
          exact ⟨some obj, by simp [stepWrites, hty, ha, hone, hobj],
            by simp [applyWrite, ← h.1]⟩

theorem bindLoop_lookup_notin {fs : FileSystem} {bd : String}
    {supplied : String → List ArgVal} :
    ∀ (opts : List (String × PromptOption)) (ctx : List (String × Json))
      (images : List ImageData) (ctx' : List (String × Json)) (images' : List ImageData),
    bindLoop fs bd supplied opts ctx images = Except.ok (ctx', images') →
    ∀ k, k ∉ opts.map Prod.fst →
    lookupCtx ctx' k = lookupCtx ctx k := by
  intro opts
  induction opts with
  | nil =>
    intro ctx images ctx' images' h k _
    simp only [bindLoop, Except.ok.injEq, Prod.mk.injEq] at h
    rw [h.1]
  | cons hd tl ih =>
    obtain ⟨name, option⟩ := hd
    intro ctx images ctx' images' h k hk
    simp only [List.map_cons, List.mem_cons, not_or] at hk
    cases hstep : bindStep fs bd name option (matchVals option (supplied name)) ctx images with
    | error e => simp [bindLoop, hstep] at h
    | ok res =>
      obtain ⟨ctx₁, imgs₁⟩ := res
      simp only [bindLoop, hstep] at h
      obtain ⟨e, -, hctx₁⟩ := bindStep_ok hstep
      rw [ih ctx₁ imgs₁ ctx' images' h k hk.2, hctx₁,
        lookup_applyWrite_ne _ _ _ _ hk.1]

theorem bindLoop_lookup {fs : FileSystem} {bd : String}
    {supplied : String → List ArgVal} :
    ∀ (opts : List (String × PromptOption)) (ctx : List (String × Json))
      (images : List ImageData) (ctx' : List (String × Json)) (images' : List ImageData),
    (opts.map Prod.fst).Nodup →
    bindLoop fs bd supplied opts ctx images = Except.ok (ctx', images') →
    ∀ name option, (name, option) ∈ opts →
    ∃ e, stepWrites fs bd option (matchVals option (supplied name)) = Except.ok e ∧
      lookupCtx ctx' name = Option.or e (lookupCtx ctx name) := by
  intro opts
  induction opts with
  | nil => intro ctx images ctx' images' _ _ name option hmem; simp at hmem
  | cons hd tl ih =>
    obtain ⟨n₀, o₀⟩ := hd
    intro ctx images ctx' images' hnodup h name option hmem
    simp only [List.map_cons, List.nodup_cons] at hnodup
    cases hstep : bindStep fs bd n₀ o₀ (matchVals o₀ (supplied n₀)) ctx images with
    | error e => simp [bindLoop, hstep] at h
    | ok res =>
      obtain ⟨ctx₁, imgs₁⟩ := res
      simp only [bindLoop, hstep] at h
      obtain ⟨e₀, hw₀, hctx₁⟩ := bindStep_ok hstep
      rcases List.mem_cons.mp hmem with heq | htl
      · injection heq with h1 h2
        subst h1; subst h2
        refine ⟨e₀, hw₀, ?_⟩
        rw [bindLoop_lookup_notin tl ctx₁ imgs₁ ctx' images' h name hnodup.1, hctx₁,
          lookup_applyWrite_self]
      · have hne : name ≠ n₀ := by
          intro heq'
          exact hnodup.1 (heq' ▸ (List.mem_map.mpr ⟨(name, option), htl, rfl⟩))
        obtain ⟨e, hw, hl⟩ := ih ctx₁ imgs₁ ctx' images' hnodup.2 h name option htl
        refine ⟨e, hw, ?_⟩
        rw [hl, hctx₁, lookup_applyWrite_ne _ _ _ _ hne]

theorem parse_ok_inv {fs : FileSystem} {bd : String}
    {options : List (String × PromptOption)} {supplied : String → List ArgVal}
    {ctx : List (String × Json)} {images : List ImageData}
    (h : parse_template_args fs bd options supplied = Except.ok (ctx, images)) :
    missingRequiredOptions options supplied = [] ∧
    bindLoop fs bd supplied options [] [] = Except.ok (ctx, images) := by
  by_cases hm : missingRequiredOptions options supplied = []
  · refine ⟨hm, ?_⟩
    simpa [parse_template_args, hm] using h
  · simp [parse_template_args, hm] at h

theorem stepWrites_empty (fs : FileSystem) (bd : String) (option : PromptOption) :
    stepWrites fs bd option (matchVals option []) = Except.ok (unsuppliedEntry option) := by
  cases hty : option.option_type <;> cases ha : option.array <;>
    simp [stepWrites, matchVals, option_value, unsuppliedEntry, remove_one, remove_many,
      readImages, filesTraverse, argValToJson, hty, ha]

theorem mem_missingRequired {options : List (String × PromptOption)}
    {supplied : String → List ArgVal} {name : String} {option : PromptOption}
    (hmem : (name, option) ∈ options) (hreq : argRequired option = true)
    (hsup : supplied name = []) :
    name ∈ missingRequiredOptions options supplied := by
  unfold missingRequiredOptions
  exact List.mem_map.mpr ⟨(name, option),
    List.mem_filter.mpr ⟨hmem, by simp [hreq, hsup]⟩, rfl⟩

theorem matchVals_ne_bool {option : PromptOption}
    (hty : option.option_type ≠ OptionType.bool) (vals : List ArgVal) :
    matchVals option vals = vals := by
  simp [matchVals, hty]

theorem remove_many_getD (vals : List ArgVal) : (remove_many vals).getD [] = vals := by
  cases vals <;> simp [remove_many]

theorem map_pathOf_vPath (paths : List String) :
    (paths.map ArgVal.vPath).map pathOf = paths := by
  induction paths <;> simp_all [pathOf]

theorem stepWrites_file_array {fs : FileSystem} {bd : String} {option : PromptOption}
    (hty : option.option_type = OptionType.file) (harr : option.array = true)
    (paths : List String) :
    stepWrites fs bd option (paths.map ArgVal.vPath) =
      match filesTraverse fs bd paths with
      | Except.error e => Except.error (e.changeContext ErrCtx.argParseFailure)
      | Except.ok objs => Except.ok (some (Json.arr objs)) := by
  have hpaths : ((remove_many (paths.map ArgVal.vPath)).getD []).map pathOf = paths := by
    rw [remove_many_getD, map_pathOf_vPath]
  simp only [stepWrites, hty, harr, if_true, hpaths]

theorem stepWrites_image_array {fs : FileSystem} {bd : String} {option : PromptOption}
    (hty : option.option_type = OptionType.image) (harr : option.array = true)
    (paths : List String) :
    stepWrites fs bd option (paths.map ArgVal.vPath) =
      match readImages fs bd paths [] with
      | Except.error e => Except.error e
      | Except.ok _ => Except.ok none := by
  have hpaths : ((remove_many (paths.map ArgVal.vPath)).getD []).map pathOf = paths := by
    rw [remove_many_getD, map_pathOf_vPath]
  simp only [stepWrites, hty, harr, if_true, hpaths]

theorem create_file_object_ok_inv {fs : FileSystem} {bd p : String} {obj : Json}
    (h : create_file_object fs bd p = Except.ok obj) :
    ∃ cp text, fs.canonicalize bd p = some cp ∧ fs.readToString cp = some text ∧
      obj = Json.obj [("filename", Json.str (fileName p)), ("path", Json.str p),
        ("contents", Json.str text)] := by
  cases hc : fs.canonicalize bd p with
  | none => simp [create_file_object, hc] at h
  | some cp =>
    cases hr : fs.readToString cp with
    | none => simp [create_file_object, hc, hr] at h
    | some text =>
      simp only [create_file_object, hc, hr, Except.ok.injEq] at h
      exact ⟨cp, text, rfl, hr, h.symm⟩

theorem read_image_ok_inv {fs : FileSystem} {bd p : String} {img : ImageData}
    (h : read_image fs bd p = Except.ok img) :
    ∃ cp, fs.canonicalize bd p = some cp ∧ fs.imageNew cp = some img := by
  cases hc : fs.canonicalize bd p with
  | none => simp [read_image, hc] at h
  | some cp =>
    cases hi : fs.imageNew cp with
    | none => simp [read_image, hc, hi] at h
    | some img' =>
      simp only [read_image, hc, hi, Except.ok.injEq] at h
      exact ⟨cp, rfl, h ▸ hi⟩

theorem filesTraverse_ok_forall {fs : FileSystem} {bd : String} :
    ∀ {paths : List String} {objs : List Json},
    filesTraverse fs bd paths = Except.ok objs →
    ∀ p ∈ paths, ∃ obj, create_file_object fs bd p = Except.ok obj := by
  intro paths
  induction paths with
  | nil => intro objs _ p hp; simp at hp
  | cons q rest ih =>
    intro objs h p hp
    cases hobj : create_file_object fs bd q with
    | error e => simp [filesTraverse, hobj] at h
    | ok v =>
      cases hrest : filesTraverse fs bd rest with
      | error e => simp [filesTraverse, hobj, hrest] at h
      | ok vs =>
        rcases List.mem_cons.mp hp with heq | htl
        · exact heq ▸ ⟨v, hobj⟩
        · exact ih hrest p htl

theorem filesTraverse_of_pointwise {fs : FileSystem} {bd : String}
    (canonF textF : String → String) :
    ∀ paths : List String,
    (∀ p ∈ paths, fs.canonicalize bd p = some (canonF p) ∧
      fs.readToString (canonF p) = some (textF p)) →
    filesTraverse fs bd paths = Except.ok (paths.map (fun p =>
      Json.obj [("filename", Json.str (fileName p)), ("path", Json.str p),
        ("contents", Json.str (textF p))])) := by
  intro paths
  induction paths with
  | nil => intro _; rfl
  | cons q rest ih =>
    intro hall
    obtain ⟨hc, hr⟩ := hall q (List.mem_cons_self _ _)
    have hrest := ih (fun p hp => hall p (List.mem_cons_of_mem _ hp))
    simp [filesTraverse, create_file_object, hc, hr, hrest]

theorem readImages_ok_forall {fs : FileSystem} {bd : String} :
    ∀ {paths : List String} {acc imgs : List ImageData},
    readImages fs bd paths acc = Except.ok imgs →
    ∀ p ∈ paths, ∃ img, read_image fs bd p = Except.ok img := by
  intro paths
  induction paths with
  | nil => intro acc imgs _ p hp; simp at hp
  | cons q rest ih =>
    intro acc imgs h p hp
    cases hread : read_image fs bd q with
    | error e => simp [readImages, hread] at h
    | ok img =>
      simp only [readImages, hread] at h
      rcases List.mem_cons.mp hp with heq | htl
      · exact heq ▸ ⟨img, hread⟩
      · exact ih h p htl

theorem parse_unsupplied_lookup {fs : FileSystem} {bd : String}
    {options : List (String × PromptOption)} {supplied : String → List ArgVal}
    {ctx : List (String × Json)} {images : List ImageData}
    {name : String} {option : PromptOption}
    (hnodup : (options.map Prod.fst).Nodup)
    (h : parse_template_args fs bd options supplied = Except.ok (ctx, images))
    (hmem : (name, option) ∈ options) (hsup : supplied name = []) :
    lookupCtx ctx name = unsuppliedEntry option := by
  obtain ⟨-, hloop⟩ := parse_ok_inv h
  obtain ⟨e, hw, hl⟩ := bindLoop_lookup options [] [] ctx images hnodup hloop name option hmem
  rw [hsup, stepWrites_empty] at hw
  injection hw with he
  subst he
  cases h' : unsuppliedEntry option <;> simp_all [Option.or, lookupCtx]

theorem strIsEmpty_false {s : String} (h : s ≠ "") : strIsEmpty s = false := by
  cases s with
  | mk data =>
    cases data with
    | nil => exact absurd rfl h
    | cons c cs => rfl

theorem strDrop_append (p rest : String) : strDrop (p ++ rest) p.length = rest := by
  show String.mk ((p.data ++ rest.data).drop p.data.length) = rest
  rw [List.drop_left]

theorem send_request_loop_ok (chunks : List OllamaResponse) :
    ∀ sent : List String,
    send_request_loop (chunks.map LineResult.ok) sent =
      (sent ++ chunks.map OllamaResponse.response, none) := by
  induction chunks with
  | nil => intro sent; simp [send_request_loop]
  | cons c rest ih => intro sent; simp [send_request_loop, ih]

theorem truncateLoop_ok {keep : OverflowKeep} {tokens : String → Nat}
    {render : String → String} {budget : Nat} {lines : List String} :
    ∀ (m : Nat) (s : String),
    truncateLoop keep tokens render budget lines m = Except.ok s →
    ∃ n, n ≤ m ∧ s = render (String.intercalate "\n" (keepLines keep lines n)) ∧
      tokens s ≤ budget := by
  intro m
  induction m with
  | zero =>
    intro s h
    simp only [truncateLoop] at h
    split at h
    · injection h with hs
      exact ⟨0, Nat.le_refl _, hs.symm, hs ▸ ‹_›⟩
    · cases h
  | succ n ih =>
    intro s h
    simp only [truncateLoop] at h
    split at h
    · injection h with hs
      exact ⟨n + 1, Nat.le_refl _, hs.symm, hs ▸ ‹_›⟩
    · obtain ⟨n', hn', hs, ht⟩ := ih s h
      exact ⟨n', Nat.le_trans hn' (Nat.le_succ _), hs, ht⟩

/-! ## Claim theorems -/

/-- C1: binding treats an Option Descriptor as mandatory exactly when its
type is not Bool, it has no default, and it is not marked optional; for every
such mandatory descriptor with no supplied value in the token stream, binding
fails with the missing-required condition naming that option (wrapped in the
`CmdlineParseFailure` variant that hosts clap errors), and produces no
Evaluation Context. -/
theorem c1_mandatory_missing_required :
    (∀ option : PromptOption, argRequired option = true ↔
      (option.option_type ≠ OptionType.bool ∧ option.default = none ∧
        option.optional = false)) ∧
    (∀ (fs : FileSystem) (bd : String) (options : List (String × PromptOption))
      (supplied : String → List ArgVal) (name : String) (option : PromptOption),
      (name, option) ∈ options → argRequired option = true → supplied name = [] →
      parse_template_args fs bd options supplied =
        Except.error ⟨[ErrCtx.cmdlineParseFailure (ClapErrorKind.missingRequiredArgument
          (missingRequiredOptions options supplied))], []⟩ ∧
      name ∈ missingRequiredOptions options supplied) := by
  constructor
  · intro option
    simp [argRequired, Bool.and_eq_true, bne_iff_ne, Option.isNone_iff_eq_none,
      Bool.not_eq_true', and_assoc]
  · intro fs bd options supplied name option hmem hreq hsup
    have hmem' := mem_missingRequired hmem hreq hsup
    have hne : missingRequiredOptions options supplied ≠ [] :=
      List.ne_nil_of_mem hmem'
    exact ⟨by simp [parse_template_args, hne], hmem'⟩

/-- C1 witness: the spec's scenario — a single mandatory String option
`topic` with no supplied value. -/
theorem c1_mandatory_missing_required_witness :
    parse_template_args emptyFS "." c1Options (fun _ => []) =
      Except.error ⟨[ErrCtx.cmdlineParseFailure
        (ClapErrorKind.missingRequiredArgument ["topic"])], []⟩ ∧
    "topic" ∈ (["topic"] : List String) :=
  c1_mandatory_missing_required.2 emptyFS "." c1Options (fun _ => []) "topic"
    ⟨OptionType.string, false, none, false, ""⟩ (List.mem_cons_self _ _) rfl rfl

/-- C2 counterexample: binding `c2Options` (a scalar Bool with declared
default `true`, a scalar File with declared default `"d"`, an optional scalar
Image) with no supplied values succeeds, yet the Image option's key is absent
from the Evaluation Context, the File option's entry is `null` rather than
its declared default, and the Bool option's entry is `false` rather than its
declared default — refuting the claim at this input. -/
theorem c2_counterexample :
    parse_template_args emptyFS "." c2Options (fun _ => []) =
      Except.ok (c2Context, []) ∧
    lookupCtx c2Context "img" = none ∧
    lookupCtx c2Context "f" = some Json.null ∧
    Json.null ≠ Json.str "d" ∧
    lookupCtx c2Context "b" = some (Json.bool false) ∧
    Json.bool false ≠ Json.bool true := by
  refine ⟨rfl, rfl, rfl, by simp, rfl, by simp⟩

/-- C2 (amended): after a successful binding, every declared option name
whose type is not Image has an Evaluation Context entry; when no value is
supplied, the entry is: for array options of type Bool/Number/Integer/String,
the declared default if present and otherwise an empty array; for scalar
Number/Integer/String options, the declared default if present and otherwise
null; for scalar Bool options, `false` regardless of any declared default;
for File options, an empty array (array) or null (scalar) regardless of any
declared default.  Image options produce no Evaluation Context entry. -/
theorem c2_unsupplied_entries :
    ∀ (fs : FileSystem) (bd : String) (options : List (String × PromptOption))
      (supplied : String → List ArgVal) (ctx : List (String × Json))
      (images : List ImageData) (name : String) (option : PromptOption),
    (options.map Prod.fst).Nodup →
    parse_template_args fs bd options supplied = Except.ok (ctx, images) →
    (name, option) ∈ options →
    supplied name = [] →
    lookupCtx ctx name = unsuppliedEntry option := by
  intro fs bd options supplied ctx images name option hnodup h hmem hsup
  exact parse_unsupplied_lookup hnodup h hmem hsup

/-- C2 witness: the amended rule evaluated on `c2Options`: the unsupplied
scalar Bool option binds to `false`. -/
theorem c2_unsupplied_entries_witness :
    lookupCtx c2Context "b" = some (Json.bool false) :=
  c2_unsupplied_entries emptyFS "." c2Options (fun _ => []) c2Context [] "b"
    ⟨OptionType.bool, false, some (Json.bool true), false, ""⟩
    (by decide) rfl (List.mem_cons_self _ _) rfl

/-- C3: for every Bool-typed scalar descriptor, omitting the flag from the
token stream yields the value `false` under that option's name in the
Evaluation Context — never a missing key and never null. -/
theorem c3_bool_omitted_false :
    ∀ (fs : FileSystem) (bd : String) (options : List (String × PromptOption))
      (supplied : String → List ArgVal) (ctx : List (String × Json))
      (images : List ImageData) (name : String) (option : PromptOption),
    (options.map Prod.fst).Nodup →
    parse_template_args fs bd options supplied = Except.ok (ctx, images) →
    (name, option) ∈ options →
    option.option_type = OptionType.bool →
    option.array = false →
    supplied name = [] →
    lookupCtx ctx name = some (Json.bool false) := by
  intro fs bd options supplied ctx images name option hnodup h hmem hty harr hsup
  rw [parse_unsupplied_lookup hnodup h hmem hsup]
  simp [unsuppliedEntry, hty, harr]

/-- C3 witness: a single scalar Bool option `flag`, no values supplied. -/
theorem c3_bool_omitted_false_witness :
    lookupCtx [("flag", Json.bool false)] "flag" = some (Json.bool false) :=
  c3_bool_omitted_false emptyFS "." c3Options (fun _ => [])
    [("flag", Json.bool false)] [] "flag"
    ⟨OptionType.bool, false, none, false, ""⟩
    (by decide) rfl (List.mem_cons_self _ _) rfl rfl rfl

/-- C4: when the overflow-keep setting is unspecified, the policy defaults to
`End`; every successful budgeter result is the rendering of a selection of
whole lines of the pre-render free-form input (so the template-fixed content
added by `render` is preserved), the result fits the budget
`limit − reserve`, and the kept lines are a leading segment of the input's
lines under `End` and a trailing segment under `Start`. -/
theorem c4_overflow_keep_truncation :
    (∀ (tokens : String → Nat) (render : String → String) (limit reserve : Nat)
      (input : String),
      enforce_context_limit none tokens render limit reserve input =
        enforce_context_limit (some OverflowKeep.End) tokens render limit reserve input) ∧
    (∀ (keepArg : Option OverflowKeep) (tokens : String → Nat)
      (render : String → String) (limit reserve : Nat) (input : String) (s : String),
      enforce_context_limit keepArg tokens render limit reserve input = Except.ok s →
      ∃ n, s = render (String.intercalate "\n"
          (keepLines (keepArg.getD OverflowKeep.End) (splitNewline input) n)) ∧
        tokens s ≤ limit - reserve ∧
        (keepArg.getD OverflowKeep.End = OverflowKeep.End →
          ∃ t, keepLines OverflowKeep.End (splitNewline input) n ++ t =
            splitNewline input) ∧
        (keepArg.getD OverflowKeep.End = OverflowKeep.Start →
          ∃ t, t ++ keepLines OverflowKeep.Start (splitNewline input) n =
            splitNewline input)) := by
  constructor
  · intro tokens render limit reserve input
    rfl
  · intro keepArg tokens render limit reserve input s h
    obtain ⟨n, -, hs, ht⟩ := truncateLoop_ok _ s h
    refine ⟨n, hs, ht, ?_, ?_⟩
    · intro _
      exact ⟨(splitNewline input).drop n, List.take_append_drop _ _⟩
    · intro _
      refine ⟨(splitNewline input).take ((splitNewline input).length - n), ?_⟩
      exact List.take_append_drop _ _

/-- C4 witness: input `"abc\ndef\nghi"`, token measure `String.length`,
render prepending `"H:"`, limit 20, reserve 10: with the default (`End`)
policy the budgeter keeps the two leading lines. -/
theorem c4_overflow_keep_truncation_witness :
    ∃ n, "H:abc\ndef" = (fun s => "H:" ++ s) (String.intercalate "\n"
        (keepLines ((none : Option OverflowKeep).getD OverflowKeep.End)
          (splitNewline "abc\ndef\nghi") n)) ∧
      String.length "H:abc\ndef" ≤ 20 - 10 ∧
      ((none : Option OverflowKeep).getD OverflowKeep.End = OverflowKeep.End →
        ∃ t, keepLines OverflowKeep.End (splitNewline "abc\ndef\nghi") n ++ t =
          splitNewline "abc\ndef\nghi") ∧
      ((none : Option OverflowKeep).getD OverflowKeep.End = OverflowKeep.Start →
        ∃ t, t ++ keepLines OverflowKeep.Start (splitNewline "abc\ndef\nghi") n =
          splitNewline "abc\ndef\nghi") :=
  c4_overflow_keep_truncation.2 none String.length (fun s => "H:" ++ s)
    20 10 "abc\ndef\nghi" "H:abc\ndef" rfl

/-- C5 counterexample: a supplied File option whose path cannot be
canonicalized aborts the binding, but the resulting report carries the
`ArgParseFailure` context over the bare io error — the `Io` variant never
appears in the chain, and no attachment names the offending path (the
attachment list is empty) — refuting "aborts with an Io failure annotated
with the offending path" at this input. -/
theorem c5_counterexample :
    parse_template_args emptyFS "." c5Options c5Supplied =
      Except.error ⟨[ErrCtx.ioError, ErrCtx.argParseFailure], []⟩ ∧
    ErrCtx.io ∉ [ErrCtx.ioError, ErrCtx.argParseFailure] := by
  exact ⟨rfl, by decide⟩

/-- C5 (amended): a File- or Image-typed option value whose path cannot be
canonicalized or whose contents cannot be read aborts the whole binding with
an error (no partial Evaluation Context or attachment list is produced):
contrapositively, a successful binding implies every supplied File/Image path
canonicalized and read successfully (conjuncts 1-4, for scalar and array
options).  The reported failure's outermost context is `ArgParseFailure`, not
`Io`: a scalar File canonicalization failure yields contexts
`[io error, ArgParseFailure]` with no attachment at all (conjunct 5); a
scalar File read failure attaches "Could not read file: {path}" (conjunct 6);
a scalar Image canonicalization failure carries the `Io` context and the path
attachment inside the `ArgParseFailure` wrapper (conjunct 7). -/
theorem c5_io_failure_aborts :
    (∀ (fs : FileSystem) (bd : String) (options : List (String × PromptOption))
      (supplied : String → List ArgVal) (ctx : List (String × Json))
      (images : List ImageData) (name : String) (option : PromptOption) (p : String),
      (options.map Prod.fst).Nodup →
      parse_template_args fs bd options supplied = Except.ok (ctx, images) →
      (name, option) ∈ options → option.option_type = OptionType.file →
      option.array = false → supplied name = [ArgVal.vPath p] →
      ∃ cp text, fs.canonicalize bd p = some cp ∧ fs.readToString cp = some text) ∧
    (∀ (fs : FileSystem) (bd : String) (options : List (String × PromptOption))
      (supplied : String → List ArgVal) (ctx : List (String × Json))
      (images : List ImageData) (name : String) (option : PromptOption) (p : String),
      (options.map Prod.fst).Nodup →
      parse_template_args fs bd options supplied = Except.ok (ctx, images) →
      (name, option) ∈ options → option.option_type = OptionType.image →
      option.array = false → supplied name = [ArgVal.vPath p] →
      ∃ cp img, fs.canonicalize bd p = some cp ∧ fs.imageNew cp = some img) ∧
    (∀ (fs : FileSystem) (bd : String) (options : List (String × PromptOption))
      (supplied : String → List ArgVal) (ctx : List (String × Json))
      (images : List ImageData) (name : String) (option : PromptOption)
      (paths : List String),
      (options.map Prod.fst).Nodup →
      parse_template_args fs bd options supplied = Except.ok (ctx, images) →
      (name, option) ∈ options → option.option_type = OptionType.file →
      option.array = true → supplied name = paths.map ArgVal.vPath →
      ∀ p ∈ paths, ∃ cp text, fs.canonicalize bd p = some cp ∧
        fs.readToString cp = some text) ∧
    (∀ (fs : FileSystem) (bd : String) (options : List (String × PromptOption))
      (supplied : String → List ArgVal) (ctx : List (String × Json))
      (images : List ImageData) (name : String) (option : PromptOption)
      (paths : List String),
      (options.map Prod.fst).Nodup →
      parse_template_args fs bd options supplied = Except.ok (ctx, images) →
      (name, option) ∈ options → option.option_type = OptionType.image →
      option.array = true → supplied name = paths.map ArgVal.vPath →
      ∀ p ∈ paths, ∃ cp img, fs.canonicalize bd p = some cp ∧
        fs.imageNew cp = some img) ∧
    (∀ (fs : FileSystem) (bd name p : String),
      fs.canonicalize bd p = none →
      parse_template_args fs bd [(name, ⟨OptionType.file, false, none, false, ""⟩)]
        (fun _ => [ArgVal.vPath p]) =
        Except.error ⟨[ErrCtx.ioError, ErrCtx.argParseFailure], []⟩) ∧
    (∀ (fs : FileSystem) (bd name p cp : String),
      fs.canonicalize bd p = some cp → fs.readToString cp = none →
      parse_template_args fs bd [(name, ⟨OptionType.file, false, none, false, ""⟩)]
        (fun _ => [ArgVal.vPath p]) =
        Except.error ⟨[ErrCtx.ioError, ErrCtx.argParseFailure],
          ["Could not read file: " ++ p]⟩) ∧
    (∀ (fs : FileSystem) (bd name p : String),
      fs.canonicalize bd p = none →
      parse_template_args fs bd [(name, ⟨OptionType.image, false, none, false, ""⟩)]
        (fun _ => [ArgVal.vPath p]) =
        Except.error ⟨[ErrCtx.ioError, ErrCtx.io, ErrCtx.argParseFailure], [p]⟩) := by
  refine ⟨?_, ?_, ?_, ?_, ?_, ?_, ?_⟩
  · intro fs bd options supplied ctx images name option p hnodup h hmem hty harr hsup
    obtain ⟨-, hloop⟩ := parse_ok_inv h
    obtain ⟨e, hw, -⟩ :=
      bindLoop_lookup options [] [] ctx images hnodup hloop name option hmem
    rw [hsup, matchVals_ne_bool (by simp [hty])] at hw
    cases hobj : create_file_object fs bd p with
    | error err =>
      simp [stepWrites, hty, harr, remove_one, pathOf, hobj] at hw
    | ok obj =>
      obtain ⟨cp, text, hc, hr, -⟩ := create_file_object_ok_inv hobj
      exact ⟨cp, text, hc, hr⟩
  · intro fs bd options supplied ctx images name option p hnodup h hmem hty harr hsup
    obtain ⟨-, hloop⟩ := parse_ok_inv h
    obtain ⟨e, hw, -⟩ :=
      bindLoop_lookup options [] [] ctx images hnodup hloop name option hmem
    rw [hsup, matchVals_ne_bool (by simp [hty])] at hw
    cases himg : read_image fs bd p with
    | error err =>
      simp [stepWrites, hty, harr, remove_one, pathOf, himg] at hw
    | ok img =>
      obtain ⟨cp, hc, hi⟩ := read_image_ok_inv himg
      exact ⟨cp, img, hc, hi⟩
  · intro fs bd options supplied ctx images name option paths hnodup h hmem hty harr hsup
    obtain ⟨-, hloop⟩ := parse_ok_inv h
    obtain ⟨e, hw, -⟩ :=
      bindLoop_lookup options [] [] ctx images hnodup hloop name option hmem
    rw [hsup, matchVals_ne_bool (by simp [hty]), stepWrites_file_array hty harr] at hw
    intro p hp
    cases htr : filesTraverse fs bd paths with
    | error err => rw [htr] at hw; simp at hw
    | ok objs =>
      obtain ⟨obj, hobj⟩ := filesTraverse_ok_forall htr p hp
      obtain ⟨cp, text, hc, hr, -⟩ := create_file_object_ok_inv hobj
      exact ⟨cp, text, hc, hr⟩
  · intro fs bd options supplied ctx images name option paths hnodup h hmem hty harr hsup
    obtain ⟨-, hloop⟩ := parse_ok_inv h
    obtain ⟨e, hw, -⟩ :=
      bindLoop_lookup options [] [] ctx images hnodup hloop name option hmem
    rw [hsup, matchVals_ne_bool (by simp [hty]), stepWrites_image_array hty harr] at hw
    intro p hp
    cases hri : readImages fs bd paths [] with
    | error err => rw [hri] at hw; simp at hw
    | ok imgs =>
      obtain ⟨img, himg⟩ := readImages_ok_forall hri p hp
      obtain ⟨cp, hc, hi⟩ := read_image_ok_inv himg
      exact ⟨cp, img, hc, hi⟩
  · intro fs bd name p hc
    simp [parse_template_args, missingRequiredOptions, argRequired, bindLoop, bindStep,
      matchVals, remove_one, pathOf, create_file_object, ErrReport.changeContext, hc]
  · intro fs bd name p cp hc hr
    simp [parse_template_args, missingRequiredOptions, argRequired, bindLoop, bindStep,
      matchVals, remove_one, pathOf, create_file_object, ErrReport.changeContext,
      ErrReport.attach, hc, hr]
  · intro fs bd name p hc
    simp [parse_template_args, missingRequiredOptions, argRequired, bindLoop, bindStep,
      matchVals, remove_one, pathOf, read_image, ErrReport.changeContext,
      ErrReport.attach, hc]

/-- C5 witness: the amended error shapes evaluated concretely — a File path
that fails to canonicalize on a filesystem with no files, and an Image path
likewise. -/
theorem c5_io_failure_aborts_witness :
    parse_template_args emptyFS "." [("f", ⟨OptionType.file, false, none, false, ""⟩)]
      (fun _ => [ArgVal.vPath "x.txt"]) =
      Except.error ⟨[ErrCtx.ioError, ErrCtx.argParseFailure], []⟩ ∧
    parse_template_args emptyFS "." [("i", ⟨OptionType.image, false, none, false, ""⟩)]
      (fun _ => [ArgVal.vPath "p.png"]) =
      Except.error ⟨[ErrCtx.ioError, ErrCtx.io, ErrCtx.argParseFailure], ["p.png"]⟩ :=
  ⟨c5_io_failure_aborts.2.2.2.2.1 emptyFS "." "f" "x.txt" rfl,
   c5_io_failure_aborts.2.2.2.2.2.2 emptyFS "." "i" "p.png" rfl⟩

/-- C6: a supplied File-typed option value that binds successfully yields,
under that option's name, an object with fields `filename`, `path` and
`contents`, where `contents` is the full text read from the path
canonicalized against the base directory; for array File options the entries
preserve the caller-supplied order (the entry is the map of the object
constructor over the supplied paths, in order). -/
theorem c6_file_object_binding :
    (∀ (fs : FileSystem) (bd : String) (options : List (String × PromptOption))
      (supplied : String → List ArgVal) (ctx : List (String × Json))
      (images : List ImageData) (name : String) (option : PromptOption)
      (p cp text : String),
      (options.map Prod.fst).Nodup →
      parse_template_args fs bd options supplied = Except.ok (ctx, images) →
      (name, option) ∈ options → option.option_type = OptionType.file →
      option.array = false → supplied name = [ArgVal.vPath p] →
      fs.canonicalize bd p = some cp → fs.readToString cp = some text →
      lookupCtx ctx name = some (Json.obj
        [("filename", Json.str (fileName p)), ("path", Json.str p),
         ("contents", Json.str text)])) ∧
    (∀ (fs : FileSystem) (bd : String) (options : List (String × PromptOption))
      (supplied : String → List ArgVal) (ctx : List (String × Json))
      (images : List ImageData) (name : String) (option : PromptOption)
      (paths : List String) (canonF textF : String → String),
      (options.map Prod.fst).Nodup →
      parse_template_args fs bd options supplied = Except.ok (ctx, images) →
      (name, option) ∈ options → option.option_type = OptionType.file →
      option.array = true → supplied name = paths.map ArgVal.vPath →
      (∀ p ∈ paths, fs.canonicalize bd p = some (canonF p) ∧
        fs.readToString (canonF p) = some (textF p)) →
      lookupCtx ctx name = some (Json.arr (paths.map (fun p =>
        Json.obj [("filename", Json.str (fileName p)), ("path", Json.str p),
          ("contents", Json.str (textF p))])))) := by
  constructor
  · intro fs bd options supplied ctx images name option p cp text hnodup h hmem hty harr
      hsup hc hr
    obtain ⟨-, hloop⟩ := parse_ok_inv h
    obtain ⟨e, hw, hl⟩ :=
      bindLoop_lookup options [] [] ctx images hnodup hloop name option hmem
    rw [hsup, matchVals_ne_bool (by simp [hty])] at hw
    rw [show stepWrites fs bd option [ArgVal.vPath p] = Except.ok (some (Json.obj
        [("filename", Json.str (fileName p)), ("path", Json.str p),
         ("contents", Json.str text)])) by
      simp [stepWrites, hty, harr, remove_one, pathOf, create_file_object, hc, hr]] at hw
    injection hw with he
    subst he
    simpa [Option.or, lookupCtx] using hl
  · intro fs bd options supplied ctx images name option paths canonF textF hnodup h hmem
      hty harr hsup hall
    obtain ⟨-, hloop⟩ := parse_ok_inv h
    obtain ⟨e, hw, hl⟩ :=
      bindLoop_lookup options [] [] ctx images hnodup hloop name option hmem
    have htr := filesTraverse_of_pointwise canonF textF paths hall
    rw [hsup, matchVals_ne_bool (by simp [hty]), stepWrites_file_array hty harr,
      htr] at hw
    injection hw with he
    subst he
    simpa [Option.or, lookupCtx] using hl

/-- C6 witness: `--f x.txt` on a filesystem canonicalizing under `/c/` where
every file reads as `"hello"`. -/
theorem c6_file_object_binding_witness :
    lookupCtx [("f", Json.obj [("filename", Json.str "x.txt"),
      ("path", Json.str "x.txt"), ("contents", Json.str "hello")])] "f" =
      some (Json.obj [("filename", Json.str "x.txt"), ("path", Json.str "x.txt"),
        ("contents", Json.str "hello")]) :=
  c6_file_object_binding.1 helloFS "." c5Options c5Supplied
    [("f", Json.obj [("filename", Json.str "x.txt"), ("path", Json.str "x.txt"),
      ("contents", Json.str "hello")])] [] "f"
    ⟨OptionType.file, false, none, false, ""⟩ "x.txt" "/c/x.txt" "hello"
    (by decide) rfl (List.mem_cons_self _ _) rfl rfl rfl rfl rfl

/-- C7: context-window discovery returns the model's declared context size
when its metadata publishes a `num_ctx` parameter line, and returns the
default 2048 as a success (not a failure) when no such parameter is
published. -/
theorem c7_context_window_discovery :
    (∀ parameters : String,
      (splitNewline parameters).find? (fun l => strStartsWith l "num_ctx") = none →
      model_context_limit_params parameters = Except.ok 2048) ∧
    (∀ (parameters rest : String) (n : Nat),
      (splitNewline parameters).find? (fun l => strStartsWith l "num_ctx") =
        some ("num_ctx " ++ rest) →
      parseUsize (trimChars rest) = some n →
      model_context_limit_params parameters = Except.ok n) := by
  constructor
  · intro parameters hfind
    simp [model_context_limit_params, hfind]
  · intro parameters rest n hfind hparse
    simp [model_context_limit_params, hfind, strDrop_append, hparse]

/-- C7 witness: metadata publishing `num_ctx  4096` resolves to 4096;
metadata with no `num_ctx` line resolves to the default 2048. -/
theorem c7_context_window_discovery_witness :
    model_context_limit_params "stop x\nnum_ctx  4096" = Except.ok 4096 ∧
    model_context_limit_params "temperature 1" = Except.ok 2048 :=
  ⟨c7_context_window_discovery.2 "stop x\nnum_ctx  4096" " 4096" 4096 rfl rfl,
   c7_context_window_discovery.1 "temperature 1" rfl⟩

/-- C8: for a backend response consisting of well-formed JSON lines, the
dispatcher pushes exactly the `response` field of each line onto the output
channel, in backend-emission order, with no error; hence the ordered
concatenation of all pushed fragments equals the concatenation of the
`response` fields of those lines. -/
theorem c8_streaming_concatenation :
    ∀ chunks : List OllamaResponse,
    (send_request_loop (chunks.map LineResult.ok) []).1 =
      chunks.map OllamaResponse.response ∧
    (send_request_loop (chunks.map LineResult.ok) []).2 = none ∧
    String.join (send_request_loop (chunks.map LineResult.ok) []).1 =
      String.join (chunks.map OllamaResponse.response) := by
  intro chunks
  rw [send_request_loop_ok chunks []]
  simp

/-- C9: when standard input is piped (non-terminal) and non-empty, its text
is appended after all declared trailing extra strings in the joined extra
text; if the template references an `extra` binding the joined text is
injected into the Evaluation Context under the key "extra" and the template
text is unchanged, otherwise the joined text (when non-empty) is appended to
the template text and the context is unchanged. -/
theorem c9_piped_extra_text :
    ∀ (template : String) (extra_prompt : List String) (stdin_value : String)
      (references_extra : Bool) (context : List (String × Json)),
    stdin_value ≠ "" →
    (references_extra = true →
      apply_extra template extra_prompt false stdin_value references_extra context =
        ⟨template, objInsert context "extra"
          (Json.str (String.intercalate "\n\n" (extra_prompt ++ [stdin_value])))⟩) ∧
    (references_extra = false →
      String.intercalate "\n\n" (extra_prompt ++ [stdin_value]) ≠ "" →
      apply_extra template extra_prompt false stdin_value references_extra context =
        ⟨template ++ "\n\n" ++ String.intercalate "\n\n" (extra_prompt ++ [stdin_value]),
         context⟩) := by
  intro template extra_prompt stdin_value references_extra context hne
  have hse := strIsEmpty_false hne
  constructor
  · intro href
    simp [apply_extra, hse, href]
  · intro href hec
    have hec' := strIsEmpty_false hec
    simp [apply_extra, hse, href, hec']

/-- C9 witness: template `"T"`, one declared extra `"e1"`, piped stdin
`"piped"`, evaluated in both the referencing and the non-referencing case. -/
theorem c9_piped_extra_text_witness :
    apply_extra "T" ["e1"] false "piped" true [] =
      ⟨"T", [("extra", Json.str "e1\n\npiped")]⟩ ∧
    apply_extra "T" ["e1"] false "piped" false [] =
      ⟨"T\n\ne1\n\npiped", []⟩ :=
  ⟨(c9_piped_extra_text "T" ["e1"] "piped" true [] (by decide)).1 rfl,
   (c9_piped_extra_text "T" ["e1"] "piped" false [] (by decide)).2 rfl (by decide)⟩

/-- C10: model-option resolution folds persisted configuration, then the
template's declared model block, then the explicit CLI flags, in that fixed
order; an overwrite step replaces a field only when the later source supplies
a value (a `none` never overwrites), so an explicit CLI flag always wins, and
a field set by no source keeps the starting (backend-default) value. -/
theorem c10_model_option_precedence :
    (∀ (α : Type) (x : Option α), overwrite_option_from_option x none = x) ∧
    (∀ (α : Type) (y : α), overwrite_from_option y (none : Option α) = y) ∧
    (∀ (config : ModelOptions) (input : ModelInput) (args : RunModelArgs),
      (resolve_model_options config input args).model =
        Option.or args.model (Option.or input.model config.model) ∧
      (resolve_model_options config input args).temperature =
        args.temperature.getD (input.temperature.getD config.temperature)) ∧
    (∀ (config : ModelOptions) (input : ModelInput) (args : RunModelArgs)
      (v : String),
      args.model = some v → (resolve_model_options config input args).model = some v) ∧
    (∀ config : ModelOptions,
      resolve_model_options config ⟨none, none⟩ ⟨none, none⟩ = config) := by
  refine ⟨?_, ?_, ?_, ?_, ?_⟩
  · intro α x; cases x <;> rfl
  · intro α y; rfl
  · intro config input args
    constructor
    · cases hm : args.model <;> cases hi : input.model <;>
        simp [resolve_model_options, ModelOptions.update_from_args,
          ModelOptions.update_from_model_input, overwrite_option_from_option,
          Option.or, hm, hi]
    · cases ht : args.temperature <;> cases hi : input.temperature <;>
        simp [resolve_model_options, ModelOptions.update_from_args,
          ModelOptions.update_from_model_input, overwrite_from_option, ht, hi]
  · intro config input args v hv
    cases hi : input.model <;>
      simp [resolve_model_options, ModelOptions.update_from_args,
        ModelOptions.update_from_model_input, overwrite_option_from_option, hv, hi]
  · intro config
    cases config with
    | mk m t =>
      cases m <;>
        simp [resolve_model_options, ModelOptions.update_from_args,
          ModelOptions.update_from_model_input, overwrite_option_from_option,
          overwrite_from_option]

/-- C10 witness: the precedence chain evaluated at concrete sources — the CLI
flag wins over template and configuration values. -/
theorem c10_model_option_precedence_witness :
    (resolve_model_options ⟨some "cfg", ⟨1⟩⟩ ⟨some "tmpl", some ⟨2⟩⟩
      ⟨some "cli", some ⟨3⟩⟩).model = some "cli" :=
  c10_model_option_precedence.2.2.2.1 ⟨some "cfg", ⟨1⟩⟩ ⟨some "tmpl", some ⟨2⟩⟩
    ⟨some "cli", some ⟨3⟩⟩ "cli" rfl

end Promptbox
